import Mathlib

/-!
Verification of the distributed-lock core of `nestjs-distributed-lock`
(src: `distributed-lock.service.ts`, final revision).

The service is embedded shallowly.  Database effects are made explicit:
every operation returns its result together with a trace of `Event`s
(queries issued, query runners created and released, sleeps).  The
behaviour of the database engine during an acquisition is an oracle
`env : Nat → AttemptBehavior` giving the outcome of each attempt of the
retry loop; the behaviour during a release / isLocked call is a small
record of outcomes.  Machine arithmetic of the JavaScript hash
(`Math.imul`, `^`, `>>> 0`) is modelled over `Nat` with explicit
reductions modulo `2 ^ 32`.
-/

namespace DistributedLock

/-- Error taxonomy of `exceptions/distributed-lock.exception.ts`.
`infra` stands for an arbitrary transport / database error (identified by
a numeric code so that traces stay decidable). -/
inductive Exc where
  | alreadyHeld (key : String)
  | acquireTimeout (key : String) (timeout : Int)
  | notHeld (key : String)
  | infra (code : Nat)
deriving Repr, DecidableEq

/-- Observable effects of the service, in order of occurrence.
`rid` identifies a query runner (`dataSource.createQueryRunner()`);
during one `acquire` call the runner created by attempt `i` has id `i`. -/
inductive Event where
  | createRunner (rid : Nat)
  | connect (rid : Nat)
  | connectError (rid : Nat) (code : Nat)
  | advisoryLock (rid : Nat) (lockKey : Nat)
  | tryAdvisoryLock (rid : Nat) (lockKey : Nat) (locked : Bool)
  | queryError (rid : Nat) (code : Nat)
  | unlock (rid : Nat) (lockKey : Nat)
  | unlockDS (lockKey : Nat)
  | pgLocks (lockKey : Nat)
  | runnerRelease (rid : Nat)
  | sleep (ms : Int)
  | logError (code : Nat)
  | logNotHeld (lockKey : Nat)
deriving Repr, DecidableEq

/-- Outcome of one attempt of the acquisition loop, decided by the engine:
the initial `connect()` may fail, the grant query may fail, or the grant
query resolves — with the lock granted or (for the non-blocking probe)
refused. -/
inductive AttemptBehavior where
  | granted
  | refused
  | connectFail (code : Nat)
  | queryFail (code : Nat)
deriving Repr, DecidableEq

/-- An attempt whose connect or grant query raised a transport error. -/
def AttemptBehavior.isError : AttemptBehavior → Bool
  | .connectFail _ => true
  | .queryFail _ => true
  | .granted => false
  | .refused => false

/-- Behaviour of the engine during `release` / `releaseWithRunner`:
whether each statement throws, and the boolean reported by the
data-source-level `pg_advisory_unlock` row. -/
structure ReleaseEnv where
  runnerUnlockErr : Option Nat
  runnerCloseErr : Option Nat
  dsUnlockErr : Option Nat
  dsUnlocked : Bool
deriving Repr, DecidableEq

/-- Behaviour of the engine during `isLocked`: whether the `pg_locks`
query throws, and otherwise how many rows it returns. -/
structure IsLockedEnv where
  err : Option Nat
  rows : Nat
deriving Repr, DecidableEq

/-- Service-level defaults fixed in the constructor
(`options.defaultTimeout ?? DEFAULT_TIMEOUT`, etc.). -/
structure ServiceConfig where
  defaultTimeout : Int
  maxRetries : Int
  retryDelay : Int
deriving Repr, DecidableEq

/-- Per-call options (`LockAcquireOptions`), every field optional. -/
structure LockAcquireOptions where
  timeout : Option Int := none
  wait : Option Bool := none
  maxRetries : Option Int := none
  retryDelay : Option Int := none
deriving Repr, DecidableEq

/-- The options actually used by one `acquire` call. -/
structure ResolvedOptions where
  timeout : Int
  wait : Bool
  maxRetries : Int
  retryDelay : Int
deriving Repr, DecidableEq

/-- Destructuring with defaults at the top of `acquire`:
`const { timeout = this.defaultTimeout, wait = true, ... } = options`. -/
def resolveOptions (cfg : ServiceConfig) (o : LockAcquireOptions) : ResolvedOptions :=
  { timeout := o.timeout.getD cfg.defaultTimeout
    wait := o.wait.getD true
    maxRetries := o.maxRetries.getD cfg.maxRetries
    retryDelay := o.retryDelay.getD cfg.retryDelay }

/-- The state captured by the `LockHandle` closure returned by `acquire`:
`release: () => this.releaseWithRunner(key, lockKey, queryRunner)`.
`runner = none` models `queryRunner === undefined`. -/
structure LockHandle where
  key : String
  lockKey : Nat
  runner : Option Nat
deriving Repr, DecidableEq

/-! ### KeyHasher (`generateLockKey` / `fnv1a32`, final revision) -/

/-- UTF-16 code units of a string, as produced by JavaScript
`charCodeAt` (code points above `0xFFFF` become surrogate pairs). -/
def utf16CodeUnits (s : String) : List Nat :=
  s.data.flatMap fun c =>
    let n := c.toNat
    if n < 65536 then [n]
    else [55296 + (n - 65536) / 1024, 56320 + (n - 65536) % 1024]

/-- One step of the FNV-1a loop:
`hash ^= str.charCodeAt(i); hash = Math.imul(hash, 0x01000193)`.
`Math.imul` is multiplication of 32-bit values modulo `2 ^ 32`
(the signed/unsigned reading only changes the interpretation of the
bit pattern, not the bits; the final `>>> 0` of `fnv1a32` selects the
unsigned reading, which is the one modelled here throughout). -/
def fnv1a32Step (hash c : Nat) : Nat :=
  ((hash ^^^ c) * 16777619) % 4294967296

/-- `fnv1a32(str)`: fold of `fnv1a32Step` from the FNV offset basis
`0x811c9dc5`, then `hash >>> 0` (identity in the unsigned reading). -/
def fnv1a32 (units : List Nat) : Nat :=
  units.foldl fnv1a32Step 2166136261

/-- `generateLockKey(key)`: `Math.abs(this.fnv1a32(key)) % 2147483647`.
The FNV value is already non-negative, so `Math.abs` is the identity. -/
def generateLockKey (units : List Nat) : Nat :=
  fnv1a32 units % 2147483647

/-- Lock identifier of a string key. -/
def lockKeyOf (key : String) : Nat :=
  generateLockKey (utf16CodeUnits key)

/-! ### tryAcquireLock (final revision) -/

/-- One call of `tryAcquireLock(lockKey, timeout, wait)` on the runner
`rid`, under engine behaviour `b`.  Returns the `{ acquired, queryRunner }`
pair (runner kept only on a blocking grant) or the propagated error,
together with the trace.  On a granted non-blocking probe the code
immediately issues `pg_advisory_unlock` and releases the runner. -/
def tryAcquireLock (rid lockKey : Nat) (wait : Bool) (b : AttemptBehavior) :
    Except Exc (Bool × Option Nat) × List Event :=
  match b with
  | .connectFail c =>
    (Except.error (Exc.infra c),
     [Event.createRunner rid, Event.connectError rid c, Event.runnerRelease rid])
  | .queryFail c =>
    (Except.error (Exc.infra c),
     [Event.createRunner rid, Event.connect rid, Event.queryError rid c,
      Event.runnerRelease rid])
  | .granted =>
    if wait then
      (Except.ok (true, some rid),
       [Event.createRunner rid, Event.connect rid, Event.advisoryLock rid lockKey])
    else
      (Except.ok (true, none),
       [Event.createRunner rid, Event.connect rid,
        Event.tryAdvisoryLock rid lockKey true, Event.unlock rid lockKey,
        Event.runnerRelease rid])
  | .refused =>
    if wait then
      -- a blocking `pg_advisory_lock` call that resolves is a grant:
      -- the code returns `acquired = true` whenever the query resolves
      (Except.ok (true, some rid),
       [Event.createRunner rid, Event.connect rid, Event.advisoryLock rid lockKey])
    else
      (Except.ok (false, none),
       [Event.createRunner rid, Event.connect rid,
        Event.tryAdvisoryLock rid lockKey false, Event.runnerRelease rid])

/-! ### acquire (final revision) -/

/-- The `for (let attempt = 0; attempt <= maxRetries; attempt++)` loop of
`acquire`, with `fuel` the number of remaining iterations
(`fuel = maxRetries - attempt + 1`; in particular `fuel = 1` is the
`attempt === maxRetries` iteration, and `fuel = 0` is the point after the
loop, which throws `LockAcquireTimeoutException(key, timeout)`).

On a refused attempt with `wait == false` the code throws
`LockAlreadyHeldException`, but that throw sits inside the loop body
`try` and the `catch` does not rethrow it: like any caught error it
either becomes `AcquireTimeout` (last iteration) or a sleep and a retry.
A refused attempt with `wait == true` skips the sleep guard
`attempt < maxRetries` on the last iteration; the observable outcome on
every non-granted path is therefore the same three-way split below. -/
def acquireAux (key : String) (lockKey : Nat) (timeout : Int) (wait : Bool)
    (retryDelay : Int) (env : Nat → AttemptBehavior) :
    Nat → Nat → Except Exc LockHandle × List Event
  | _, 0 => (Except.error (Exc.acquireTimeout key timeout), [])
  | attempt, fuel + 1 =>
    match tryAcquireLock attempt lockKey wait (env attempt) with
    | (Except.ok (true, r), tr) =>
      -- `return { key, release: () => this.releaseWithRunner(key, lockKey, queryRunner) }`
      (Except.ok ⟨key, lockKey, r⟩, tr)
    | (Except.ok (false, _), tr) =>
      -- `if (!wait) throw new LockAlreadyHeldException(key)` — caught below;
      -- `wait == true`: fall through to the retry guard
      if fuel = 0 then
        (Except.error (Exc.acquireTimeout key timeout), tr)
      else
        let rest := acquireAux key lockKey timeout wait retryDelay env (attempt + 1) fuel
        (rest.1, tr ++ Event.sleep retryDelay :: rest.2)
    | (Except.error _, tr) =>
      -- `catch`: on the last iteration throw AcquireTimeout, else sleep and retry
      if fuel = 0 then
        (Except.error (Exc.acquireTimeout key timeout), tr)
      else
        let rest := acquireAux key lockKey timeout wait retryDelay env (attempt + 1) fuel
        (rest.1, tr ++ Event.sleep retryDelay :: rest.2)

/-- `acquire(key, options)`: resolve the options, compute the identifier,
run the attempt loop.  A negative `maxRetries` gives the loop zero
iterations (`(maxRetries + 1).toNat = 0`). -/
def acquire (key : String) (cfg : ServiceConfig) (opts : LockAcquireOptions)
    (env : Nat → AttemptBehavior) : Except Exc LockHandle × List Event :=
  let o := resolveOptions cfg opts
  acquireAux key (lockKeyOf key) o.timeout o.wait o.retryDelay env 0
    (o.maxRetries + 1).toNat

/-! ### release / releaseWithRunner / isLocked / withLock (final revision) -/

/-- `release(key)`: issue `pg_advisory_unlock` through the shared data
source.  A `false` row is only logged (the lock may have been released by
the engine already); an infrastructure error is logged and not rethrown.
The call never raises. -/
def release (key : String) (env : ReleaseEnv) : Except Exc Unit × List Event :=
  let lockKey := lockKeyOf key
  match env.dsUnlockErr with
  | some c => (Except.ok (), [Event.unlockDS lockKey, Event.logError c])
  | none =>
    if env.dsUnlocked then
      (Except.ok (), [Event.unlockDS lockKey])
    else
      (Except.ok (), [Event.unlockDS lockKey, Event.logNotHeld lockKey])

/-- `releaseWithRunner(key, lockKey, queryRunner)`: with a runner, issue
the unlock on that very runner and release it (errors are caught, the
runner released again with a swallowed failure, and logged); without a
runner, fall back to `release(key)`.  Never raises. -/
def releaseWithRunner (key : String) (lockKey : Nat) (runner : Option Nat)
    (env : ReleaseEnv) : Except Exc Unit × List Event :=
  match runner with
  | some rid =>
    match env.runnerUnlockErr with
    | some c =>
      (Except.ok (),
       [Event.unlock rid lockKey, Event.queryError rid c,
        Event.runnerRelease rid, Event.logError c])
    | none =>
      match env.runnerCloseErr with
      | some c =>
        (Except.ok (),
         [Event.unlock rid lockKey, Event.runnerRelease rid,
          Event.runnerRelease rid, Event.logError c])
      | none =>
        (Except.ok (), [Event.unlock rid lockKey, Event.runnerRelease rid])
  | none => release key env

/-- The `release()` closure of a handle. -/
def LockHandle.releaseCall (h : LockHandle) (env : ReleaseEnv) :
    Except Exc Unit × List Event :=
  releaseWithRunner h.key h.lockKey h.runner env

/-- `isLocked(key)`: query `pg_locks`; any error is logged and reported
as `false`; otherwise true exactly when at least one row matched. -/
def isLocked (key : String) (env : IsLockedEnv) : Except Exc Bool × List Event :=
  let lockKey := lockKeyOf key
  match env.err with
  | some c => (Except.ok false, [Event.pgLocks lockKey, Event.logError c])
  | none => (Except.ok (decide (0 < env.rows)), [Event.pgLocks lockKey])

/-- `withLock(key, fn, options)`: acquire, run `fn`, and in the `finally`
release through the handle with a `.catch` that swallows release errors.
The promise returned by `fn` is modelled by its settled outcome
`fn : Except ε α`, whose error type is the caller's own. -/
def withLock {ε α : Type} (key : String) (cfg : ServiceConfig)
    (opts : LockAcquireOptions) (env : Nat → AttemptBehavior)
    (renv : ReleaseEnv) (fn : Except ε α) :
    Except (Exc ⊕ ε) α × List Event :=
  match acquire key cfg opts env with
  | (Except.error e, tr) => (Except.error (Sum.inl e), tr)
  | (Except.ok h, tr) =>
    let rel := h.releaseCall renv
    match fn with
    | Except.ok a => (Except.ok a, tr ++ rel.2)
    | Except.error e => (Except.error (Sum.inr e), tr ++ rel.2)

/-! ### Trace accounting -/

/-- Number of acquisition attempts in a trace: each attempt creates
exactly one query runner. -/
def countAttempts (tr : List Event) : Nat :=
  tr.countP fun e => match e with
    | Event.createRunner _ => true
    | _ => false

/-- Number of sleeps in a trace. -/
def countSleeps (tr : List Event) : Nat :=
  tr.countP fun e => match e with
    | Event.sleep _ => true
    | _ => false

/-! ## Theorems -/

/-- C8: for every string key — empty, multi-byte, or arbitrarily long —
the lock identifier `generateLockKey(key)` lies in `[0, 2^31 - 1]`
(the lower bound holds because the value is a natural number). -/
theorem generateLockKey_in_range (key : String) :
    lockKeyOf key ≤ 2 ^ 31 - 1 := by
  have h : lockKeyOf key < 2147483647 :=
    Nat.mod_lt _ (by norm_num)
  have e : (2 : Nat) ^ 31 - 1 = 2147483647 := by norm_num
  rw [e]
  omega

/-- C9: the key-to-identifier function is deterministic — it is a pure
function of the key string alone (its Lean embedding takes no other
argument, mirroring the source, which reads no state), so byte-for-byte
equal keys always map to equal identifiers, across any two calls. -/
theorem generateLockKey_deterministic (k1 k2 : String) (h : k1 = k2) :
    lockKeyOf k1 = lockKeyOf k2 := by
  rw [h]

/-- Witness for C9 at the concrete key `order:123`. -/
theorem generateLockKey_deterministic_witness :
    lockKeyOf "order:123" = lockKeyOf "order:123" :=
  generateLockKey_deterministic "order:123" "order:123" rfl

/-- C4: `release(key)` never raises — whatever the engine does (unlock
row `false` because the lock was never held, or an infrastructure error),
the final revision only logs and returns normally. -/
theorem release_not_held_non_fatal (key : String) (env : ReleaseEnv) :
    (release key env).1 = Except.ok () := by
  cases h : env.dsUnlockErr <;> cases h2 : env.dsUnlocked <;>
    simp [release, h, h2]

/-- C6: `isLocked(key)` never throws; on any infrastructure error it
reports `false` (fail-open), and otherwise it reports `true` exactly when
the `pg_locks` query returned at least one row. -/
theorem isLocked_fail_open (key : String) (env : IsLockedEnv) :
    (∀ c, env.err = some c → (isLocked key env).1 = Except.ok false) ∧
    (env.err = none → (isLocked key env).1 = Except.ok (decide (0 < env.rows))) ∧
    ∃ b, (isLocked key env).1 = Except.ok b := by
  cases h : env.err <;> simp [isLocked, h]

/-- Witness for C6: a failing registry query on key `k` reports `false`. -/
theorem isLocked_fail_open_witness :
    (isLocked "k" ⟨some 7, 3⟩).1 = Except.ok false :=
  (isLocked_fail_open "k" ⟨some 7, 3⟩).1 7 rfl

/-- C10: with a negative `maxRetries` the attempt loop body never runs
(`attempt <= maxRetries` fails at `attempt = 0`), so `acquire` raises
`AcquireTimeout` with an empty trace: no runner, no query, no sleep. -/
theorem acquire_negative_retries_immediate (key : String) (cfg : ServiceConfig)
    (opts : LockAcquireOptions) (env : Nat → AttemptBehavior)
    (hneg : (resolveOptions cfg opts).maxRetries < 0) :
    acquire key cfg opts env =
      (Except.error (Exc.acquireTimeout key (resolveOptions cfg opts).timeout), []) := by
  have h0 : ((resolveOptions cfg opts).maxRetries + 1).toNat = 0 := by omega
  simp only [acquire]
  rw [h0, acquireAux]

/-- Witness for C10: `maxRetries = -1` times out at once, empty trace. -/
theorem acquire_negative_retries_immediate_witness :
    acquire "k" ⟨30000, 3, 1000⟩ ⟨none, none, some (-1), none⟩
        (fun _ => AttemptBehavior.granted) =
      (Except.error (Exc.acquireTimeout "k" 30000), []) :=
  acquire_negative_retries_immediate "k" ⟨30000, 3, 1000⟩
    ⟨none, none, some (-1), none⟩ (fun _ => AttemptBehavior.granted) (by decide)

/-- C3 (failing input): a non-blocking `acquire` whose probe is refused
does NOT surface `AlreadyHeld`.  The thrown `LockAlreadyHeldException`
is caught by the loop's own `catch`, which sleeps and retries and finally
raises `AcquireTimeout`.  At `maxRetries = 1, retryDelay = 50` with both
probes refused, the code runs two attempts, sleeps once, and raises
`AcquireTimeout` — the claim demands `AlreadyHeld`, one attempt, no sleep. -/
theorem acquire_nonblocking_refused_times_out :
    acquire "k" ⟨30000, 3, 1000⟩ ⟨none, some false, some 1, some 50⟩
        (fun _ => AttemptBehavior.refused) =
      (Except.error (Exc.acquireTimeout "k" 30000),
       [Event.createRunner 0, Event.connect 0,
        Event.tryAdvisoryLock 0 (lockKeyOf "k") false, Event.runnerRelease 0,
        Event.sleep 50,
        Event.createRunner 1, Event.connect 1,
        Event.tryAdvisoryLock 1 (lockKeyOf "k") false, Event.runnerRelease 1]) := by
  rfl

/-- C2 (counterexample): the claim predicts that a granted non-blocking
probe behaves like a blocking grant — handle bound to the session
(`runner.isSome`) and no engine-level unlock during `acquire`.  The code
refutes both at the concrete input below: the probe session is unlocked
and closed inside `acquire`, and the handle carries no runner. -/
theorem nonblocking_hold_semantics_cex :
    ¬ (∀ (h : LockHandle) (tr : List Event),
        acquire "k" ⟨30000, 3, 1000⟩ ⟨none, some false, none, none⟩
            (fun _ => AttemptBehavior.granted) =
          (Except.ok h, tr) →
        h.runner.isSome = true ∧ ∀ r lk, Event.unlock r lk ∉ tr) := by
  intro hcl
  have h := hcl ⟨"k", lockKeyOf "k", none⟩
    [Event.createRunner 0, Event.connect 0,
     Event.tryAdvisoryLock 0 (lockKeyOf "k") true,
     Event.unlock 0 (lockKeyOf "k"), Event.runnerRelease 0] rfl
  simp at h

/-- C2 (amended): a successful non-blocking probe immediately issues
`pg_advisory_unlock` on the probe session and releases that session
during `acquire`; the returned handle carries no session, so its
`release()` falls back to the session-less `release(key)` issued through
the shared data source. -/
theorem nonblocking_probe_releases_immediately
    (key : String) (cfg : ServiceConfig) (opts : LockAcquireOptions)
    (env : Nat → AttemptBehavior) (renv : ReleaseEnv)
    (hw : (resolveOptions cfg opts).wait = false)
    (hmr : 0 ≤ (resolveOptions cfg opts).maxRetries)
    (hg : env 0 = AttemptBehavior.granted) :
    acquire key cfg opts env =
      (Except.ok ⟨key, lockKeyOf key, none⟩,
       [Event.createRunner 0, Event.connect 0,
        Event.tryAdvisoryLock 0 (lockKeyOf key) true,
        Event.unlock 0 (lockKeyOf key), Event.runnerRelease 0]) ∧
    Event.unlockDS (lockKeyOf key) ∈
      (LockHandle.releaseCall ⟨key, lockKeyOf key, none⟩ renv).2 := by
  have hf : ((resolveOptions cfg opts).maxRetries + 1).toNat =
      (resolveOptions cfg opts).maxRetries.toNat + 1 := by omega
  constructor
  · simp only [acquire]
    rw [hf, acquireAux, hg]
    simp [tryAcquireLock, hw]
  · cases hc : renv.dsUnlockErr <;> cases hu : renv.dsUnlocked <;>
      simp [LockHandle.releaseCall, releaseWithRunner, release, hc, hu]

/-- Witness for the amended C2 at a concrete input. -/
theorem nonblocking_probe_releases_immediately_witness :
    acquire "k" ⟨30000, 3, 1000⟩ ⟨none, some false, none, none⟩
        (fun _ => AttemptBehavior.granted) =
      (Except.ok ⟨"k", lockKeyOf "k", none⟩,
       [Event.createRunner 0, Event.connect 0,
        Event.tryAdvisoryLock 0 (lockKeyOf "k") true,
        Event.unlock 0 (lockKeyOf "k"), Event.runnerRelease 0]) :=
  (nonblocking_probe_releases_immediately "k" ⟨30000, 3, 1000⟩
    ⟨none, some false, none, none⟩ (fun _ => AttemptBehavior.granted)
    ⟨none, none, none, true⟩ (by decide) (by decide) rfl).1

/-- Characterization of a successful blocking acquisition: the handle is
bound to the very runner on which the (single) resolved grant query was
issued, and no other grant query resolved anywhere in the trace. -/
theorem acquireAux_blocking_success (key : String) (lk : Nat) (t d : Int)
    (env : Nat → AttemptBehavior) :
    ∀ fuel attempt (h : LockHandle) (tr : List Event),
      acquireAux key lk t true d env attempt fuel = (Except.ok h, tr) →
      h.key = key ∧ h.lockKey = lk ∧
      ∃ rid, h.runner = some rid ∧
        Event.advisoryLock rid lk ∈ tr ∧
        ∀ r k, Event.advisoryLock r k ∈ tr → r = rid ∧ k = lk := by
  intro fuel
  induction fuel with
  | zero =>
    intro attempt h tr heq
    simp [acquireAux] at heq
  | succ fuel ih =>
    intro attempt h tr heq
    rw [acquireAux] at heq
    cases hb : env attempt with
    | granted =>
      rw [hb] at heq
      simp only [tryAcquireLock, if_pos] at heq
      simp only [Prod.mk.injEq, Except.ok.injEq] at heq
      obtain ⟨rfl, rfl⟩ := heq
      refine ⟨rfl, rfl, attempt, rfl, by simp, ?_⟩
      intro r k hm
      simpa using hm
    | refused =>
      rw [hb] at heq
      simp only [tryAcquireLock, if_pos] at heq
      simp only [Prod.mk.injEq, Except.ok.injEq] at heq
      obtain ⟨rfl, rfl⟩ := heq
      refine ⟨rfl, rfl, attempt, rfl, by simp, ?_⟩
      intro r k hm
      simpa using hm
    | connectFail c =>
      rw [hb] at heq
      simp only [tryAcquireLock] at heq
      by_cases hf : fuel = 0
      · simp [hf] at heq
      · simp only [if_neg hf] at heq
        rcases hr : acquireAux key lk t true d env (attempt + 1) fuel with ⟨res, tr2⟩
        rw [hr] at heq
        simp only [Prod.mk.injEq] at heq
        obtain ⟨h1, rfl⟩ := heq
        obtain ⟨hk, hlk, rid, hrid, hmem, huniq⟩ := ih (attempt + 1) h tr2 (by rw [hr, h1])
        refine ⟨hk, hlk, rid, hrid, by simp [hmem], ?_⟩
        intro r k hm
        rcases List.mem_append.1 hm with hm | hm
        · simp at hm
        · rcases List.mem_cons.1 hm with hm | hm
          · simp at hm
          · exact huniq r k hm
    | queryFail c =>
      rw [hb] at heq
      simp only [tryAcquireLock] at heq
      by_cases hf : fuel = 0
      · simp [hf] at heq
      · simp only [if_neg hf] at heq
        rcases hr : acquireAux key lk t true d env (attempt + 1) fuel with ⟨res, tr2⟩
        rw [hr] at heq
        simp only [Prod.mk.injEq] at heq
        obtain ⟨h1, rfl⟩ := heq
        obtain ⟨hk, hlk, rid, hrid, hmem, huniq⟩ := ih (attempt + 1) h tr2 (by rw [hr, h1])
        refine ⟨hk, hlk, rid, hrid, by simp [hmem], ?_⟩
        intro r k hm
        rcases List.mem_append.1 hm with hm | hm
        · simp at hm
        · rcases List.mem_cons.1 hm with hm | hm
          · simp at hm
          · exact huniq r k hm

/-- C1: for a blocking acquisition, the handle returned by `acquire` is
bound to the exact runner that issued the successful grant query (the
only grant that resolved in the whole trace), and `release()` through the
handle issues the unlock on that same runner — never through the shared
data source (`unlockDS`), i.e. never on a different connection. -/
theorem acquire_blocking_release_same_session
    (key : String) (cfg : ServiceConfig) (opts : LockAcquireOptions)
    (env : Nat → AttemptBehavior) (renv : ReleaseEnv)
    (hw : (resolveOptions cfg opts).wait = true)
    (h : LockHandle) (tr : List Event)
    (hacq : acquire key cfg opts env = (Except.ok h, tr)) :
    h.key = key ∧ h.lockKey = lockKeyOf key ∧
    ∃ rid, h.runner = some rid ∧
      Event.advisoryLock rid (lockKeyOf key) ∈ tr ∧
      (∀ r k, Event.advisoryLock r k ∈ tr → r = rid ∧ k = lockKeyOf key) ∧
      Event.unlock rid (lockKeyOf key) ∈ (h.releaseCall renv).2 ∧
      ∀ k, Event.unlockDS k ∉ (h.releaseCall renv).2 := by
  simp only [acquire, hw] at hacq
  obtain ⟨hk, hlk, rid, hrid, hmem, huniq⟩ :=
    acquireAux_blocking_success key (lockKeyOf key) (resolveOptions cfg opts).timeout
      (resolveOptions cfg opts).retryDelay env
      ((resolveOptions cfg opts).maxRetries + 1).toNat 0 h tr hacq
  refine ⟨hk, hlk, rid, hrid, hmem, huniq, ?_, ?_⟩
  · cases h1 : renv.runnerUnlockErr <;> cases h2 : renv.runnerCloseErr <;>
      simp [LockHandle.releaseCall, releaseWithRunner, hrid, hlk, h1, h2]
  · intro k
    cases h1 : renv.runnerUnlockErr <;> cases h2 : renv.runnerCloseErr <;>
      simp [LockHandle.releaseCall, releaseWithRunner, hrid, hlk, h1, h2]

/-- Witness for C1: blocking grant on the first attempt; the handle's
release issues the unlock on runner 0, the grant session. -/
theorem acquire_blocking_release_same_session_witness :
    Event.unlock 0 (lockKeyOf "k") ∈
      (LockHandle.releaseCall ⟨"k", lockKeyOf "k", some 0⟩
        ⟨none, none, none, true⟩).2 := by
  have H := acquire_blocking_release_same_session "k" ⟨30000, 3, 1000⟩
    ⟨none, none, none, none⟩ (fun _ => AttemptBehavior.granted)
    ⟨none, none, none, true⟩ (by decide) ⟨"k", lockKeyOf "k", some 0⟩
    [Event.createRunner 0, Event.connect 0, Event.advisoryLock 0 (lockKeyOf "k")]
    rfl
  obtain ⟨-, -, rid, hrid, -, -, hunlock, -⟩ := H
  have : rid = 0 := by
    have := hrid
    simp at this
    omega
  rw [this] at hunlock
  exact hunlock

/-- Exhaustion of the blocking retry loop: when every attempt raises a
transport error, running the loop with `n + 1` iterations performs
exactly `n + 1` attempts and `n` sleeps of `retryDelay`, and ends in
`AcquireTimeout` carrying the key and timeout. -/
theorem acquireAux_all_errors (key : String) (lk : Nat) (t d : Int)
    (env : Nat → AttemptBehavior)
    (herr : ∀ i, (env i).isError = true) :
    ∀ n attempt,
      (acquireAux key lk t true d env attempt (n + 1)).1 =
        Except.error (Exc.acquireTimeout key t) ∧
      countAttempts (acquireAux key lk t true d env attempt (n + 1)).2 = n + 1 ∧
      countSleeps (acquireAux key lk t true d env attempt (n + 1)).2 = n ∧
      ∀ ms, Event.sleep ms ∈ (acquireAux key lk t true d env attempt (n + 1)).2 →
        ms = d := by
  intro n
  induction n with
  | zero =>
    intro attempt
    have hb := herr attempt
    rw [acquireAux]
    cases he : env attempt <;> rw [he] at hb <;>
      simp [AttemptBehavior.isError] at hb <;>
      simp [tryAcquireLock, he, countAttempts, countSleeps]
  | succ n ih =>
    intro attempt
    have hb := herr attempt
    rw [acquireAux]
    cases he : env attempt <;> rw [he] at hb <;>
      simp only [AttemptBehavior.isError] at hb
    · exact absurd hb (by simp)
    · exact absurd hb (by simp)
    · obtain ⟨ih1, ih2, ih3, ih4⟩ := ih (attempt + 1)
      rcases hr : acquireAux key lk t true d env (attempt + 1) (n + 1) with ⟨res, tr2⟩
      rw [hr] at ih1 ih2 ih3 ih4
      simp only [tryAcquireLock, Nat.succ_ne_zero, if_neg, hr]
      refine ⟨by simpa using ih1, ?_, ?_, ?_⟩
      · simp [countAttempts, List.countP_append, List.countP_cons] at ih2 ⊢
        simpa [countAttempts] using ih2
      · simp [countSleeps, List.countP_append, List.countP_cons] at ih3 ⊢
        simpa [countSleeps] using ih3
      · intro ms hm
        rcases List.mem_append.1 hm with hm | hm
        · simp at hm
        · rcases List.mem_cons.1 hm with hm | hm
          · exact (Event.sleep.inj hm.symm).symm ▸ rfl
          · exact ih4 ms hm
    · obtain ⟨ih1, ih2, ih3, ih4⟩ := ih (attempt + 1)
      rcases hr : acquireAux key lk t true d env (attempt + 1) (n + 1) with ⟨res, tr2⟩
      rw [hr] at ih1 ih2 ih3 ih4
      simp only [tryAcquireLock, Nat.succ_ne_zero, if_neg, hr]
      refine ⟨by simpa using ih1, ?_, ?_, ?_⟩
      · simp [countAttempts, List.countP_append, List.countP_cons] at ih2 ⊢
        simpa [countAttempts] using ih2
      · simp [countSleeps, List.countP_append, List.countP_cons] at ih3 ⊢
        simpa [countSleeps] using ih3
      · intro ms hm
        rcases List.mem_append.1 hm with hm | hm
        · simp at hm
        · rcases List.mem_cons.1 hm with hm | hm
          · exact (Event.sleep.inj hm.symm).symm ▸ rfl
          · exact ih4 ms hm

/-- C7: blocking acquisition with `maxRetries = n ≥ 0` against attempts
that all raise transport/connection errors performs exactly `n + 1`
attempts with `n` sleeps of `retryDelay` between them, then raises
`AcquireTimeout` carrying the key and the resolved timeout.  (With
`wait == true` a refusal is not observable: the blocking grant query
only resolves on a grant, so a failed attempt is necessarily an error.) -/
theorem acquire_blocking_exhaustion
    (key : String) (cfg : ServiceConfig) (opts : LockAcquireOptions)
    (env : Nat → AttemptBehavior) (n : Nat)
    (hw : (resolveOptions cfg opts).wait = true)
    (hn : (resolveOptions cfg opts).maxRetries = (n : Int))
    (herr : ∀ i, (env i).isError = true) :
    (acquire key cfg opts env).1 =
      Except.error (Exc.acquireTimeout key (resolveOptions cfg opts).timeout) ∧
    countAttempts (acquire key cfg opts env).2 = n + 1 ∧
    countSleeps (acquire key cfg opts env).2 = n ∧
    ∀ ms, Event.sleep ms ∈ (acquire key cfg opts env).2 →
      ms = (resolveOptions cfg opts).retryDelay := by
  have hf : ((resolveOptions cfg opts).maxRetries + 1).toNat = n + 1 := by omega
  simp only [acquire, hw, hf]
  exact acquireAux_all_errors key (lockKeyOf key) (resolveOptions cfg opts).timeout
    (resolveOptions cfg opts).retryDelay env herr n 0

/-- Witness for C7: `maxRetries = 2, retryDelay = 50`, every attempt
failing: 3 attempts, 2 sleeps, `AcquireTimeout`. -/
theorem acquire_blocking_exhaustion_witness :
    (acquire "k" ⟨30000, 3, 1000⟩ ⟨none, none, some 2, some 50⟩
        (fun _ => AttemptBehavior.connectFail 5)).1 =
      Except.error (Exc.acquireTimeout "k" 30000) ∧
    countAttempts (acquire "k" ⟨30000, 3, 1000⟩ ⟨none, none, some 2, some 50⟩
        (fun _ => AttemptBehavior.connectFail 5)).2 = 3 ∧
    countSleeps (acquire "k" ⟨30000, 3, 1000⟩ ⟨none, none, some 2, some 50⟩
        (fun _ => AttemptBehavior.connectFail 5)).2 = 2 := by
  have H := acquire_blocking_exhaustion "k" ⟨30000, 3, 1000⟩
    ⟨none, none, some 2, some 50⟩ (fun _ => AttemptBehavior.connectFail 5) 2
    (by decide) (by decide) (fun i => rfl)
  exact ⟨H.1, H.2.1, H.2.2.1⟩

/-- A handle's `release()` never propagates a failure: every engine
behaviour (unlock query failing, runner close failing, data-source
fallback failing) is caught and logged. -/
theorem releaseCall_never_fails (h : LockHandle) (renv : ReleaseEnv) :
    (h.releaseCall renv).1 = Except.ok () := by
  cases hr : h.runner <;> cases h1 : renv.runnerUnlockErr <;>
    cases h2 : renv.runnerCloseErr <;> cases h3 : renv.dsUnlockErr <;>
    cases h4 : renv.dsUnlocked <;>
    simp [LockHandle.releaseCall, releaseWithRunner, release, hr, h1, h2, h3, h4]

/-- C5: `withLock` releases on every exit path of `fn` — the release
trace follows the acquisition trace whether `fn` resolves or rejects;
a successful `fn` yields exactly its value, a failing `fn` propagates
exactly its error, an acquisition failure propagates to the caller
(with no release attempted), and the release can never fail, so a
release failure is never propagated. -/
theorem withLock_exit_paths {ε α : Type} (key : String) (cfg : ServiceConfig)
    (opts : LockAcquireOptions) (env : Nat → AttemptBehavior)
    (renv : ReleaseEnv) (fn : Except ε α) :
    (∀ e, (acquire key cfg opts env).1 = Except.error e →
       (withLock key cfg opts env renv fn).1 = Except.error (Sum.inl e) ∧
       (withLock key cfg opts env renv fn).2 = (acquire key cfg opts env).2) ∧
    (∀ (h : LockHandle) (tr : List Event),
       acquire key cfg opts env = (Except.ok h, tr) →
       (withLock key cfg opts env renv fn).2 = tr ++ (h.releaseCall renv).2 ∧
       (∀ a, fn = Except.ok a →
          (withLock key cfg opts env renv fn).1 = Except.ok a) ∧
       (∀ e, fn = Except.error e →
          (withLock key cfg opts env renv fn).1 = Except.error (Sum.inr e)) ∧
       (h.releaseCall renv).1 = Except.ok ()) := by
  rcases hacq : acquire key cfg opts env with ⟨res, tr0⟩
  cases res with
  | error e0 =>
    constructor
    · intro e he
      simp at he
      subst he
      simp [withLock, hacq]
    · intro h tr htr
      simp at htr
  | ok h0 =>
    constructor
    · intro e he
      simp at he
    · intro h tr htr
      simp only [Prod.mk.injEq, Except.ok.injEq] at htr
      obtain ⟨rfl, rfl⟩ := htr
      refine ⟨?_, ?_, ?_, releaseCall_never_fails h0 renv⟩
      · cases fn <;> simp [withLock, hacq]
      · intro a ha
        subst ha
        simp [withLock, hacq]
      · intro e he
        subst he
        simp [withLock, hacq]

/-- Witness for C5: an uncontended blocking `withLock` returns the value
of `fn`. -/
theorem withLock_exit_paths_witness :
    (withLock "k" ⟨30000, 3, 1000⟩ ⟨none, none, none, none⟩
        (fun _ => AttemptBehavior.granted) ⟨none, none, none, true⟩
        (Except.ok 42 : Except Nat Nat)).1 = Except.ok 42 := by
  have H := withLock_exit_paths "k" ⟨30000, 3, 1000⟩ ⟨none, none, none, none⟩
    (fun _ => AttemptBehavior.granted) ⟨none, none, none, true⟩
    (Except.ok 42 : Except Nat Nat)
  exact (H.2 ⟨"k", lockKeyOf "k", some 0⟩
    [Event.createRunner 0, Event.connect 0, Event.advisoryLock 0 (lockKeyOf "k")]
    rfl).2.1 42 rfl

end DistributedLock
